import Mathlib

/-!
Verification of the Lovacar core against its natural-language specification.

The development shallowly embeds the relevant Python source files:

* `src/price_engine/offer_calculator.py` — the Offer Engine
  (`OfferCalculator.calculate_market_position`, `OfferCalculator.calculate_offer`);
* `src/utils/helpers.py` — `sanitize_text`, `extract_number_from_text`;
* `src/scrapers/email_scraper.py` and `src/scrapers/gmail_api_scraper.py` —
  `extract_car_listings` (container processing, mileage/year regexes,
  make/model heuristic);
* `src/scrapers/selenium_scraper.py` — the generic-link fallback branch of
  `parse_listings_page`;
* `src/database/mongo_database.py` — `MongoDatabase.store_listings`.

Python numbers (ints and floats) are modelled as exact rationals `ℚ`;
Python `int(x)` truncation toward zero is `pyInt`.  Optional / `None`-able
values are `Option`.  Python dictionaries used as MongoDB documents are
modelled as functions `String → Option MValue` (absent key = `none`), which
is faithful for the operations the code performs on them (`get`, key
assignment, `$set`-merge, truthiness tests).
-/

namespace Lovacar

/-! ### Python primitives -/

/-- Python `int(q)` on a number: truncation toward zero. -/
def pyInt (q : ℚ) : ℤ :=
  if q < 0 then -⌊-q⌋ else ⌊q⌋

/-- Truthiness of an optional Python number: `None` and `0` are falsy. -/
def pyFalsyNum : Option ℚ → Bool
  | none => true
  | some q => q == 0

/-! ### `OfferCalculator.calculate_market_position`
(`src/price_engine/offer_calculator.py`, lines 58-85) -/

/-- Result dictionary of `calculate_market_position`. -/
structure MarketPosition where
  relative_position : ℚ
  is_overpriced : Bool
  is_underpriced : Bool
  position_percentage : ℚ
  deriving DecidableEq, Repr

/-- `calculate_market_position(listing_price, estimated_value)`.
The guard `not listing_price or not estimated_value or estimated_value == 0`
is Python truthiness; the redundant `== 0` test is kept. -/
def calculate_market_position (listing_price estimated_value : Option ℚ) :
    MarketPosition :=
  if pyFalsyNum listing_price || pyFalsyNum estimated_value
      || (estimated_value == some 0) then
    { relative_position := 0, is_overpriced := false,
      is_underpriced := false, position_percentage := 0 }
  else
    let lp := listing_price.getD 0
    let ev := estimated_value.getD 0
    let difference := lp - ev
    let position_percentage := difference / ev * 100
    { relative_position := difference
      is_overpriced := decide (position_percentage > 5)
      is_underpriced := decide (position_percentage < -5)
      position_percentage := position_percentage }

/-! ### `OfferCalculator.calculate_offer`
(`src/price_engine/offer_calculator.py`, lines 87-153) -/

/-- Result dictionary of `calculate_offer`. -/
structure OfferResult where
  suggested_offer : Option ℚ
  discount_amount : Option ℚ
  discount_percentage : Option ℚ
  market_position : Option MarketPosition
  strategy : String
  deriving DecidableEq, Repr

/-- The null-offer result returned when inputs are insufficient. -/
def nullOffer : OfferResult :=
  { suggested_offer := none, discount_amount := none,
    discount_percentage := none, market_position := none,
    strategy := "Pas assez d'informations" }

/-- Tier selection (lines 112-134): strategy string and discount percentage
chosen from `position_percentage`.  The four branches of the source cover
all rationals, so no `None` case remains. -/
def tierOf (min_discount max_discount position_percentage : ℚ) : String × ℚ :=
  if position_percentage > 15 then
    ("Forte remise - véhicule surévalué", min 25 max_discount)
  else if position_percentage > 5 then
    ("Remise moyenne - prix au-dessus du marché", min 15 max_discount)
  else if position_percentage > -5 ∧ position_percentage ≤ 5 then
    ("Remise standard - prix conforme au marché", min_discount)
  else
    ("Remise minimale - bonne affaire", max 5 (min_discount / 2))

/-- Pre-clamp discount amount (line 137): `int(listing_price * (discount_percentage / 100))`. -/
def preDiscountAmount (lp dp : ℚ) : ℤ := pyInt (lp * (dp / 100))

/-- Pre-clamp offer (line 138): `listing_price - discount_amount`. -/
def preOffer (lp dp : ℚ) : ℚ := lp - (preDiscountAmount lp dp : ℚ)

/-- Floor of the clamp (line 141): `int(estimated_value * 0.9)`. -/
def minAcceptableOffer (ev : ℚ) : ℤ := pyInt (ev * (9 / 10))

/-- `calculate_offer(listing_price, estimated_value)` for a calculator
constructed with `min_discount`/`max_discount`. -/
def calculate_offer (min_discount max_discount : ℚ)
    (listing_price estimated_value : Option ℚ) : OfferResult :=
  if pyFalsyNum listing_price || pyFalsyNum estimated_value then
    nullOffer
  else
    let lp := listing_price.getD 0
    let ev := estimated_value.getD 0
    let market_position := calculate_market_position listing_price estimated_value
    let position_percentage := market_position.position_percentage
    let sd := tierOf min_discount max_discount position_percentage
    let strategy := sd.1
    let discount_percentage := sd.2
    let discount_amount : ℚ := (preDiscountAmount lp discount_percentage : ℚ)
    let suggested_offer : ℚ := lp - discount_amount
    let min_acceptable_offer : ℚ := (minAcceptableOffer ev : ℚ)
    if suggested_offer < min_acceptable_offer then
      { suggested_offer := some min_acceptable_offer
        discount_amount := some (lp - min_acceptable_offer)
        discount_percentage := some ((lp - min_acceptable_offer) / lp * 100)
        market_position := some market_position
        strategy := strategy }
    else
      { suggested_offer := some suggested_offer
        discount_amount := some discount_amount
        discount_percentage := some discount_percentage
        market_position := some market_position
        strategy := strategy }

/-! ### String primitives (`src/utils/helpers.py` and the scrapers)

Strings are processed as `List Char`.  `pyIsSpace` is the whitespace class
of Python's `str.isspace
` / regex `\s` for text patterns. -/

/-- Whitespace characters of Python `str` (the class matched by `\s`,
split on by `str.split()`, stripped by `str.strip()`). -/
def pyIsSpace (c : Char) : Bool :=
  c = '\t' ∨ c = '\n' ∨ c = '\x0b' ∨ c = '\x0c' ∨ c = '\r' ∨
  c = '\x1c' ∨ c = '\x1d' ∨ c = '\x1e' ∨ c = '\x1f' ∨ c = ' ' ∨
  c = '\x85' ∨ c = ' ' ∨ c = ' ' ∨ c = ' ' ∨ c = ' ' ∨
  c = ' ' ∨ c = ' ' ∨ c = ' ' ∨ c = ' ' ∨ c = ' ' ∨
  c = ' ' ∨ c = ' ' ∨ c = ' ' ∨ c = ' ' ∨ c = ' ' ∨
  c = ' ' ∨ c = ' ' ∨ c = ' ' ∨ c = '　'

/-- `re.sub(r'\s+', ' ', text)`: each maximal whitespace run becomes one
ASCII space.  The flag records whether the previous character was
whitespace. -/
def collapseAux : Bool → List Char → List Char
  | _, [] => []
  | prevWs, c :: cs =>
    if pyIsSpace c then
      if prevWs then collapseAux true cs else ' ' :: collapseAux true cs
    else c :: collapseAux false cs

/-- `str.strip()`: drop leading and trailing Python whitespace. -/
def pyStrip (l : List Char) : List Char :=
  ((l.dropWhile pyIsSpace).reverse.dropWhile pyIsSpace).reverse

/-- `sanitize_text` (`src/utils/helpers.py`, lines 41-50): collapse
whitespace runs to single spaces, then strip. -/
def sanitize_text (text : String) : String :=
  if text = "" then ""
  else String.mk (pyStrip (collapseAux false text.data))

/-- `str.split()`: split on whitespace runs, discarding empty pieces.
The accumulator holds the current word reversed. -/
def pySplitAux : List Char → List Char → List (List Char)
  | acc, [] => if acc = [] then [] else [acc.reverse]
  | acc, c :: cs =>
    if pyIsSpace c then
      if acc = [] then pySplitAux [] cs else acc.reverse :: pySplitAux [] cs
    else pySplitAux (c :: acc) cs

/-- `title.split()`. -/
def pySplit (l : List Char) : List (List Char) := pySplitAux [] l

/-- Decimal value of a digit string. -/
def digitsToNat (l : List Char) : ℕ :=
  l.foldl (fun a c => 10 * a + (c.toNat - '0'.toNat)) 0

/-! ### The make/model heuristic of the two email scrapers -/

/-- `src/scrapers/email_scraper.py`, lines 183-190: token 0 is the make and
token 1 (alone) the model. -/
def emailMakeModel (title : String) : Option String × Option String :=
  if title = "" then (none, none)
  else
    (if 0 < (pySplit title.data).length
      then some (String.mk ((pySplit title.data).getD 0 [])) else none,
     if 1 < (pySplit title.data).length
      then some (String.mk ((pySplit title.data).getD 1 [])) else none)

/-- `src/scrapers/gmail_api_scraper.py`, lines 252-260: token 0 is the make;
the model is `' '.join(parts[1:])` when there are more than two tokens,
otherwise token 1. -/
def gmailMakeModel (title : String) : Option String × Option String :=
  if title = "" then (none, none)
  else
    (if 0 < (pySplit title.data).length
      then some (String.mk ((pySplit title.data).getD 0 [])) else none,
     if 1 < (pySplit title.data).length
      then some (String.mk
        (if 2 < (pySplit title.data).length
          then List.intercalate [' '] ((pySplit title.data).drop 1)
          else (pySplit title.data).getD 1 []))
      else none)

/-! ### `extract_number_from_text` (`src/utils/helpers.py`, lines 52-68) -/

/-- Attempt of `\d+[\.,]?\d*` at the head of the list: maximal leading
digits, then a greedy optional `.`/`,`, then maximal digits. -/
def matchNumberAt (l : List Char) : Option (List Char × Option Char × List Char) :=
  let d1 := l.takeWhile Char.isDigit
  if d1 = [] then none
  else
    match l.drop d1.length with
    | c :: rest =>
      if c = '.' ∨ c = ',' then some (d1, some c, rest.takeWhile Char.isDigit)
      else some (d1, none, [])
    | [] => some (d1, none, [])

/-- `re.findall(r'\d+[\.,]?\d*', t)[0]`: first (leftmost) match. -/
def searchNumber : List Char → Option (List Char × Option Char × List Char)
  | [] => none
  | c :: cs =>
    match matchNumberAt (c :: cs) with
    | some r => some r
    | none => searchNumber cs

/-- Value of `float(numbers[0].replace(',', '.'))`: the integer part plus
the fractional digits. -/
def ratOfNumber (d1 : List Char) (d2 : List Char) : ℚ :=
  (digitsToNat d1 : ℚ) + (digitsToNat d2 : ℚ) / (10 : ℚ) ^ d2.length

/-- `extract_number_from_text(text)`: strip ASCII spaces (only `' '`), find
the first `\d+[\.,]?\d*` match, convert to a number. -/
def extract_number_from_text (text : String) : Option ℚ :=
  if text = "" then none
  else
    match searchNumber (text.data.filter (fun c => ¬ c = ' ')) with
    | none => none
    | some (d1, _, d2) => some (ratOfNumber d1 d2)

/-! ### The mileage and year regexes of `extract_car_listings`
(`src/scrapers/email_scraper.py`, lines 166-176) -/

/-- Attempt of `(\d+[\s.]?\d*)\s*km` at the head of the list, returning
group 1 as (leading digits, optional separator, trailing digits).  The
separator alternative is tried first (greedy `[\s.]?`); if the `km` suffix
then fails, the empty alternative follows, matching the regex engine's
backtracking. -/
def mileageSepCase (d1 rest : List Char) :
    Option (List Char × Option Char × List Char) :=
  match rest with
  | c :: rest2 =>
    if pyIsSpace c = true ∨ c = '.' then
      if (((rest2.drop (rest2.takeWhile Char.isDigit).length).dropWhile
          pyIsSpace).take 2) = ['k', 'm'] then
        some (d1, some c, rest2.takeWhile Char.isDigit)
      else none
    else none
  | [] => none

def matchMileageAt (l : List Char) : Option (List Char × Option Char × List Char) :=
  if l.takeWhile Char.isDigit = [] then none
  else
    match mileageSepCase (l.takeWhile Char.isDigit)
        (l.drop (l.takeWhile Char.isDigit).length) with
    | some r => some r
    | none =>
      if ((l.drop (l.takeWhile Char.isDigit).length).dropWhile pyIsSpace).take 2
          = ['k', 'm'] then
        some (l.takeWhile Char.isDigit, none, ([] : List Char))
      else none

/-- `re.search(r'(\d+[\s.]?\d*)\s*km', details_text)`: leftmost match. -/
def searchMileage : List Char → Option (List Char × Option Char × List Char)
  | [] => none
  | c :: cs =>
    match matchMileageAt (c :: cs) with
    | some r => some r
    | none => searchMileage cs

/-- Sign-and-digits phase of Python `int(str)` after stripping. -/
def pyIntParseSigned : List Char → Option ℤ
  | [] => none
  | c :: rest =>
    if c = '+' then
      if rest ≠ [] ∧ rest.all Char.isDigit then some ((digitsToNat rest : ℤ))
      else none
    else if c = '-' then
      if rest ≠ [] ∧ rest.all Char.isDigit then some (-(digitsToNat rest : ℤ))
      else none
    else
      if (c :: rest).all Char.isDigit then some ((digitsToNat (c :: rest) : ℤ))
      else none

/-- Python `int(str)`: strip whitespace, optional sign, then decimal digits;
raises (here `none`) on anything else. -/
def pyIntParse (l : List Char) : Option ℤ :=
  pyIntParseSigned (pyStrip l)

/-- Mileage extraction from `details_text` (lines 166-172): when the regex
matches, group 1 has spaces and periods removed and is passed to `int`;
a non-decimal remainder raises (`Except.error`), which aborts the
container. -/
def mileageFromDetails (dt : List Char) : Except Unit (Option ℤ) :=
  if dt = [] then .ok none
  else
    match searchMileage dt with
    | none => .ok none
    | some (d1, sep, d2) =>
      let group := d1 ++ (match sep with | some c => [c] | none => []) ++ d2
      match pyIntParse ((group.filter (fun c => ¬ c = ' ')).filter
          (fun c => ¬ c = '.')) with
      | some n => .ok (some n)
      | none => .error ()

/-- Attempt of `(\d{2})/(\d{4})` at the head of the list, returning the
year group. -/
def matchYearAt : List Char → Option ℤ
  | a :: b :: s :: c :: d :: e :: f :: _ =>
    if a.isDigit ∧ b.isDigit ∧ s = '/' ∧ c.isDigit ∧ d.isDigit ∧ e.isDigit
        ∧ f.isDigit then
      some (digitsToNat [c, d, e, f])
    else none
  | _ => none

/-- `re.search(r'(\d{2})/(\d{4})', details_text)` followed by
`int(year_match.group(2))`. -/
def searchYear : List Char → Option ℤ
  | [] => none
  | c :: cs =>
    match matchYearAt (c :: cs) with
    | some r => some r
    | none => searchYear cs

/-- Year extraction from `details_text` (lines 174-176). -/
def yearFromDetails (dt : List Char) : Option ℤ :=
  if dt = [] then none else searchYear dt

/-- The mileage value computed by `extract_car_listings` from the text of
the `small-details` element: the element text is sanitized (line 163) and
the mileage regex applied to the result (lines 166-172). -/
def mileageOfDetailsElem (raw : String) : Except Unit (Option ℤ) :=
  mileageFromDetails (sanitize_text raw).data

/-! ### The extraction pipeline of `extract_car_listings`
(`src/scrapers/email_scraper.py`, lines 113-218)

A container models one `table.border-container` element through the
selectors the code applies to it: its `<a>` nodes (href attribute and
text), and the text / attribute of each singular selected element
(`none` = the selector matched nothing, or the attribute is absent). -/

structure Container where
  links : List (Option String × String)
  card_title : Option String
  price_elem : Option String
  small_details : Option String
  img_src : Option String
  deriving DecidableEq, Repr

/-- The record built for one container (lines 192-206).  `scraped_at` is
`datetime.now().isoformat()`, passed in as `now`. -/
structure Listing where
  title : String
  make : Option String
  model : Option String
  price : Option ℚ
  price_text : String
  details : String
  mileage : Option ℤ
  year : Option ℤ
  url : Option String
  image_url : Option String
  source : String
  scraped_at : String
  deriving DecidableEq, Repr

/-- Containment of `needle` as a contiguous sublist of `hay`. -/
def containsSub (needle : List Char) : List Char → Bool
  | [] => needle.isPrefixOf []
  | c :: cs => needle.isPrefixOf (c :: cs) || containsSub needle cs

/-- Python `needle in hay` on strings. -/
def pyInStr (needle hay : String) : Bool :=
  containsSub needle.data hay.data

/-- Attempt of `autoscout24.be/fr/offres/([^?&]+)` at the head of the list:
the literal prefix (with the regex `.` matching any character), then the
greedy nonempty capture of characters other than `?` and `&`. -/
def matchOffresAt (l : List Char) : Option (List Char) :=
  if l.take 11 = "autoscout24".data then
    match l.drop 11 with
    | _ :: rest =>
      if rest.take 13 = "be/fr/offres/".data then
        match (rest.drop 13).takeWhile (fun c => ¬ (c = '?' ∨ c = '&')) with
        | [] => none
        | cap => some cap
      else none
    | [] => none
  else none

/-- `re.search(r'autoscout24.be/fr/offres/([^?&]+)', listing_url)`. -/
def searchOffres : List Char → Option (List Char)
  | [] => none
  | c :: cs =>
    match matchOffresAt (c :: cs) with
    | some r => some r
    | none => searchOffres cs

/-- URL cleaning (lines 144-150): when the href is a mail-redirect link that
contains the canonical listing path, rebuild the canonical URL from the
captured slug. -/
def cleanListingUrl (u : Option String) : Option String :=
  match u with
  | none => none
  | some url =>
    if pyInStr "click.mails.autoscout24.com" url then
      if pyInStr "autoscout24.be/fr/offres/" url then
        match searchOffres url.data with
        | some cap =>
          some ("https://www.autoscout24.be/fr/offres/" ++ String.mk cap)
        | none => some url
      else some url
    else some url

/-- Lines 133-141: the first `<a>` whose stripped text is `"Détails"`, then
its href (which may itself be absent). -/
def containerUrl (c : Container) : Option String :=
  cleanListingUrl
    (match c.links.find? (fun p => pyStrip p.2.data == "Détails".data) with
     | some p => p.1
     | none => none)

/-- Lines 152-154: the sanitized `div.card-title a` text, defaulted. -/
def containerTitle (c : Container) : String :=
  match c.card_title with
  | some t => sanitize_text t
  | none => "Titre inconnu"

/-- Lines 156-158: the sanitized `a.price` text, defaulted. -/
def containerPriceText (c : Container) : String :=
  match c.price_elem with
  | some t => sanitize_text t
  | none => "Prix non spécifié"

/-- Lines 161-163: the sanitized `a.small-details` text, defaulted. -/
def containerDetailsText (c : Container) : String :=
  match c.small_details with
  | some t => sanitize_text t
  | none => ""

/-- Lines 131-213: the body of the per-container `try` block.  The only
operation in it that can raise is `int(mileage_str)`; an exception makes
the whole container fail (`Except.error`), which the loop then skips. -/
def processContainer (now : String) (c : Container) : Except Unit Listing :=
  match mileageFromDetails (containerDetailsText c).data with
  | .error e => .error e
  | .ok mileage =>
    .ok { title := containerTitle c
          make := (emailMakeModel (containerTitle c)).1
          model := (emailMakeModel (containerTitle c)).2
          price := extract_number_from_text (containerPriceText c)
          price_text := containerPriceText c
          details := containerDetailsText c
          mileage := mileage
          year := yearFromDetails (containerDetailsText c).data
          url := containerUrl c
          image_url := c.img_src
          source := "email"
          scraped_at := now }

/-- The raw markup as the extractor sees it: the containers selected by
`table.border-container`, and all hyperlink nodes of the whole document
(which the email extractor never consults). -/
structure Markup where
  containers : List Container
  hyperlinks : List (Option String × String)
  deriving DecidableEq, Repr

/-- `extract_car_listings(html_content)`: process each selected container,
skipping the ones whose processing raised. -/
def extract_car_listings (now : String) (m : Markup) : List Listing :=
  m.containers.filterMap (fun c => (processContainer now c).toOption)

/-! ### The generic-link fallback of `selenium_scraper.parse_listings_page`
(`src/scrapers/selenium_scraper.py`, lines 206-233) -/

/-- The minimal record the Selenium fallback synthesizes per URL. -/
structure SelListing where
  id : String
  title : String
  url : String
  price_text : String
  price : Option ℚ
  scrape_date : String
  deriving DecidableEq, Repr

/-- The loop of lines 212-217, with `acc` the `listing_urls` collected so
far. -/
def seleniumCollectUrlsAux : List (Option String) → List String → List String
  | [], acc => acc
  | h :: t, acc =>
    match h with
    | some href =>
      if ¬ href = "" ∧ pyInStr "/fr/voiture/" href = true
          ∧ ¬ acc.contains href = true then
        seleniumCollectUrlsAux t (acc ++ [href])
      else seleniumCollectUrlsAux t acc
    | none => seleniumCollectUrlsAux t acc

/-- Lines 209-217: collect hrefs of all `<a>` elements that are non-empty,
contain `"/fr/voiture/"`, and are not already collected. -/
def seleniumCollectUrls (links : List (Option String)) : List String :=
  seleniumCollectUrlsAux links []

/-- Lines 221-233: the fallback branch taken when no listing-container
selector matched: one basic record per collected URL, with placeholder
title and price text and a null price. -/
def seleniumFallback (now : String) (links : List (Option String)) :
    List SelListing :=
  (seleniumCollectUrls links).map fun url =>
    { id := if pyInStr "/" url then (url.splitOn "/").getLastD "" else "unknown"
      title := "Titre non extrait"
      url := url
      price_text := "Prix non extrait"
      price := none
      scrape_date := now }

/-- The record the Selenium fallback synthesizes for the sample URL
`https://www.autoscout24.be/fr/voiture/abc`. -/
def sampleFallbackRecord : SelListing :=
  { id := (if pyInStr "/" "https://www.autoscout24.be/fr/voiture/abc"
      then (("https://www.autoscout24.be/fr/voiture/abc" :
        String).splitOn "/").getLastD ""
      else "unknown")
    title := "Titre non extrait"
    url := "https://www.autoscout24.be/fr/voiture/abc"
    price_text := "Prix non extrait"
    price := none
    scrape_date := "" }

/-! ### `MongoDatabase.store_listings`
(`src/database/mongo_database.py`, lines 93-159)

A document (a Python dict handed to PyMongo) is modelled as a function
from keys to optional values; `none` means the key is absent.  This is
faithful for everything `store_listings` does with documents: `get`,
key assignment, the `$set` update, and truthiness tests. -/

/-- A MongoDB/BSON value as the code uses them. -/
inductive MValue
  | num (q : ℚ)
  | str (s : String)
  | boolean (b : Bool)
  | time (t : ℕ)
  | null
  deriving DecidableEq, Repr

/-- A document / Python dict. -/
def Doc : Type := String → Option MValue

/-- `d.get(k)`: `None` when the key is absent. -/
def pyGet (d : Doc) (k : String) : MValue := (d k).getD .null

/-- Python truthiness of a stored value. -/
def pyTruthy : MValue → Bool
  | .num q => ¬ q = 0
  | .str s => ¬ s = ""
  | .boolean b => b
  | .time _ => true
  | .null => false

/-- `d[k] = v`. -/
def dset (d : Doc) (k : String) (v : MValue) : Doc :=
  fun k' => if k' = k then some v else d k'

/-- MongoDB `update_one(..., {'$set': patch})`: every key present in
`patch` is written over `d`; other keys keep their value. -/
def mongoSet (d patch : Doc) : Doc :=
  fun k =>
    match patch k with
    | some v => some v
    | none => d k

/-- `find_one({'url': q})` match semantics: a null (or `None`) query value
matches documents whose `url` is null or missing. -/
def urlMatches (q : MValue) (d : Doc) : Bool :=
  match q with
  | .null => d "url" = none ∨ d "url" = some .null
  | v => d "url" = some v

/-- One sticky-field copy (one of the `if existing.get(f):` statements of
lines 120-127): keep the existing value when it is truthy. -/
def keepSticky1 (existing l : Doc) (f : String) : Doc :=
  if pyTruthy (pyGet existing f) then dset l f (pyGet existing f) else l

/-- Lines 120-127 in source order: `estimated_value`, `suggested_offer`,
`discount_percentage`, `contacted`. -/
def keepSticky (existing l : Doc) : Doc :=
  keepSticky1 existing
    (keepSticky1 existing
      (keepSticky1 existing
        (keepSticky1 existing l "estimated_value")
        "suggested_offer")
      "discount_percentage")
    "contacted"

/-- The update branch (lines 115-135): set `updated_at`, keep truthy sticky
fields, `$set`-merge the dict into the existing document. -/
def mergeListing (now : ℕ) (existing l : Doc) : Doc :=
  mongoSet existing (keepSticky existing (dset l "updated_at" (.time now)))

/-- The insert branch (lines 136-147): add the bookkeeping fields. -/
def insertListing (now : ℕ) (l : Doc) : Doc :=
  dset (dset (dset (dset l "created_at" (.time now))
    "updated_at" (.time now)) "contacted" (.boolean false))
    "visited" (.boolean false)

/-- Update the first document matching the URL query in place, reporting
whether one was found. -/
def updateFirstMatch (q : MValue) (now : ℕ) (l : Doc) :
    List Doc → List Doc × Bool
  | [] => ([], false)
  | e :: rest =>
    if urlMatches q e then (mergeListing now e l :: rest, true)
    else
      ((e :: (updateFirstMatch q now l rest).1),
        (updateFirstMatch q now l rest).2)

/-- One iteration of the `store_listings` loop (lines 110-156): look the
incoming dict up by its URL; merge over the existing document if found,
append a fresh document otherwise. -/
def storeOne (now : ℕ) (db : List Doc) (l : Doc) : List Doc :=
  if (updateFirstMatch (pyGet l "url") now l db).2 then
    (updateFirstMatch (pyGet l "url") now l db).1
  else db ++ [insertListing now l]

/-- `store_listings(listings)`: process the batch in order.  The wall
clock is `now`; the insert/update counters are not modelled. -/
def store_listings (now : ℕ) (db : List Doc) (ls : List Doc) : List Doc :=
  ls.foldl (storeOne now) db

/-- The four sticky fields of the merge. -/
def stickyFields : List String :=
  ["estimated_value", "suggested_offer", "discount_percentage", "contacted"]

/-- A stored document holding `url = "u"` and `estimated_value = 12000`. -/
def sampleExisting : Doc := fun k =>
  if k = "url" then some (.str "u")
  else if k = "estimated_value" then some (.num 12000)
  else none

/-- A freshly extracted dict for the same URL: raw fields only, no sticky
keys. -/
def sampleIncoming : Doc := fun k =>
  if k = "url" then some (.str "u")
  else if k = "price" then some (.num 9000)
  else none

/-! ### Basic facts about the offer engine -/

/-- `pyInt` of a nonnegative rational is nonnegative. -/
theorem pyInt_nonneg {q : ℚ} (h : 0 ≤ q) : 0 ≤ pyInt q := by
  unfold pyInt
  rw [if_neg (not_lt.mpr h)]
  exact Int.floor_nonneg.mpr h

/-- The tier discount percentage is nonnegative when both configured
discounts are nonnegative. -/
theorem tierOf_nonneg (md Mx pp : ℚ) (hmd : 0 ≤ md) (hMx : 0 ≤ Mx) :
    0 ≤ (tierOf md Mx pp).2 := by
  unfold tierOf
  split
  · exact le_min (by norm_num) hMx
  · split
    · exact le_min (by norm_num) hMx
    · split
      · exact hmd
      · exact le_trans (by norm_num) (le_max_left 5 (md / 2))

/-- Evaluation of `calculate_market_position` on two non-falsy numbers. -/
theorem calculate_market_position_pos (lp ev : ℚ) (hlp : lp ≠ 0) (hev : ev ≠ 0) :
    calculate_market_position (some lp) (some ev) =
      { relative_position := lp - ev
        is_overpriced := decide ((lp - ev) / ev * 100 > 5)
        is_underpriced := decide ((lp - ev) / ev * 100 < -5)
        position_percentage := (lp - ev) / ev * 100 } := by
  unfold calculate_market_position pyFalsyNum
  simp [hlp, hev]

/-- Evaluation of `calculate_offer` on two non-falsy numbers: the guard is
passed and the result is the clamped or unclamped record. -/
theorem calculate_offer_eq (md Mx lp ev : ℚ) (hlp : lp ≠ 0) (hev : ev ≠ 0) :
    calculate_offer md Mx (some lp) (some ev) =
      if lp - ((preDiscountAmount lp (tierOf md Mx ((lp - ev) / ev * 100)).2 : ℤ) : ℚ)
          < ((minAcceptableOffer ev : ℤ) : ℚ) then
        { suggested_offer := some ((minAcceptableOffer ev : ℤ) : ℚ)
          discount_amount := some (lp - ((minAcceptableOffer ev : ℤ) : ℚ))
          discount_percentage :=
            some ((lp - ((minAcceptableOffer ev : ℤ) : ℚ)) / lp * 100)
          market_position := some (calculate_market_position (some lp) (some ev))
          strategy := (tierOf md Mx ((lp - ev) / ev * 100)).1 }
      else
        { suggested_offer :=
            some (lp - ((preDiscountAmount lp
              (tierOf md Mx ((lp - ev) / ev * 100)).2 : ℤ) : ℚ))
          discount_amount :=
            some ((preDiscountAmount lp
              (tierOf md Mx ((lp - ev) / ev * 100)).2 : ℤ) : ℚ)
          discount_percentage := some (tierOf md Mx ((lp - ev) / ev * 100)).2
          market_position := some (calculate_market_position (some lp) (some ev))
          strategy := (tierOf md Mx ((lp - ev) / ev * 100)).1 } := by
  unfold calculate_offer
  rw [if_neg (by simp [pyFalsyNum, hlp, hev])]
  rw [calculate_market_position_pos lp ev hlp hev]
  rfl

/-! ### Claims C1, C3, C4, C5, C10 — the Offer Engine -/

/-- C1: for `calculate_offer` with `min_discount = 10`, `max_discount = 20`
applied to listing price 8000 and estimated value 10000, the market position
is −20 %, the underpriced tier fires with discount 5 %, the pre-clamp offer
is 7600, the floor clamp fires (`int(10000 * 0.9) = 9000 > 7600`) and the
returned suggested offer is exactly 9000, which exceeds the listing price
of 8000. -/
theorem offer_scenarioC_clamp_exceeds_listing :
    (calculate_market_position (some 8000) (some 10000)).position_percentage = -20
    ∧ tierOf 10 20 (-20) = ("Remise minimale - bonne affaire", 5)
    ∧ preOffer 8000 5 = 7600
    ∧ minAcceptableOffer 10000 = 9000
    ∧ preOffer 8000 5 < (minAcceptableOffer 10000 : ℚ)
    ∧ (calculate_offer 10 20 (some 8000) (some 10000)).suggested_offer = some 9000
    ∧ (9000 : ℚ) > 8000 := by
  refine ⟨?_, ?_, ?_, ?_, ?_, ?_, by norm_num⟩ <;>
    norm_num [calculate_offer, calculate_market_position, tierOf, preOffer,
      preDiscountAmount, minAcceptableOffer, pyInt, pyFalsyNum, nullOffer]

/-- C3 counterexample: at listing price 9500 and estimated value 10000 the
market position is exactly −5 %, yet `calculate_offer` (min 10, max 20)
selects the underpriced tier (`position_percentage <= -5` branch) with
discount 5 %, not the at-market tier with the configured minimum 10 %. -/
theorem tier_boundary_minus5_counterexample :
    (calculate_market_position (some 9500) (some 10000)).position_percentage = -5
    ∧ (calculate_offer 10 20 (some 9500) (some 10000)).strategy
        = "Remise minimale - bonne affaire"
    ∧ (calculate_offer 10 20 (some 9500) (some 10000)).strategy
        ≠ "Remise standard - prix conforme au marché"
    ∧ (calculate_offer 10 20 (some 9500) (some 10000)).discount_percentage = some 5
    ∧ (5 : ℚ) ≠ 10 := by
  have hs : (calculate_offer 10 20 (some 9500) (some 10000)).strategy
      = "Remise minimale - bonne affaire" := by
    norm_num [calculate_offer, calculate_market_position, tierOf, preOffer,
      preDiscountAmount, minAcceptableOffer, pyInt, pyFalsyNum, nullOffer]
  refine ⟨?_, hs, ?_, ?_, by norm_num⟩
  · norm_num [calculate_market_position, pyFalsyNum]
  · rw [hs]; decide
  · norm_num [calculate_offer, calculate_market_position, tierOf, preOffer,
      preDiscountAmount, minAcceptableOffer, pyInt, pyFalsyNum, nullOffer]

/-- C3 amended: at a market position of exactly −5 % the underpriced tier
(`max(5, min_discount / 2)` discount) is selected, because the at-market
branch requires `position_percentage > -5` strictly; the at-market tier
(discount `min_discount`) applies exactly when `-5 < positionPct ≤ 5`. -/
theorem tier_boundary_amended :
    (∀ md Mx lp ev : ℚ, 0 < lp → 0 < ev → (lp - ev) / ev * 100 = -5 →
      (calculate_offer md Mx (some lp) (some ev)).strategy
          = "Remise minimale - bonne affaire"
      ∧ tierOf md Mx (-5) = ("Remise minimale - bonne affaire", max 5 (md / 2)))
    ∧ (∀ md Mx pp : ℚ, -5 < pp → pp ≤ 5 →
      tierOf md Mx pp = ("Remise standard - prix conforme au marché", md)) := by
  constructor
  · intro md Mx lp ev hlp hev hpp
    have hlp0 : lp ≠ 0 := ne_of_gt hlp
    have hev0 : ev ≠ 0 := ne_of_gt hev
    have htier : tierOf md Mx (-5)
        = ("Remise minimale - bonne affaire", max 5 (md / 2)) := by
      unfold tierOf
      rw [if_neg (by norm_num), if_neg (by norm_num), if_neg (by norm_num)]
    refine ⟨?_, htier⟩
    rw [calculate_offer_eq md Mx lp ev hlp0 hev0, hpp, htier]
    split <;> rfl
  · intro md Mx pp h1 h2
    unfold tierOf
    rw [if_neg (by linarith), if_neg (by linarith), if_pos ⟨h1, h2⟩]

/-- C4 counterexample: a negative estimated value is truthy in Python, so
`calculate_offer(8000, -100)` does not return the null-offer result: it
proceeds through the underpriced tier and returns a suggested offer of
7600. -/
theorem offer_negative_estimate_not_null :
    (calculate_offer 10 20 (some 8000) (some (-100))).suggested_offer = some 7600
    ∧ calculate_offer 10 20 (some 8000) (some (-100)) ≠ nullOffer := by
  have h : (calculate_offer 10 20 (some 8000) (some (-100))).suggested_offer
      = some 7600 := by
    norm_num [calculate_offer, calculate_market_position, tierOf, preOffer,
      preDiscountAmount, minAcceptableOffer, pyInt, pyFalsyNum, nullOffer]
  refine ⟨h, fun hc => ?_⟩
  rw [hc] at h
  simp [nullOffer] at h

/-- C4 amended: `calculate_offer` returns the null-offer result exactly when
`listing_price` or `estimated_value` is missing or zero (Python-falsy);
negative values pass the truthiness guard and produce a computed offer. -/
theorem offer_null_iff_falsy (md Mx : ℚ) (lp ev : Option ℚ) :
    calculate_offer md Mx lp ev = nullOffer
      ↔ (pyFalsyNum lp = true ∨ pyFalsyNum ev = true) := by
  constructor
  · intro h
    by_contra hc
    push_neg at hc
    obtain ⟨a, rfl, ha⟩ : ∃ a, lp = some a ∧ a ≠ 0 := by
      cases lp with
      | none => exact absurd rfl hc.1
      | some a =>
        refine ⟨a, rfl, fun h0 => hc.1 ?_⟩
        simp [pyFalsyNum, h0]
    obtain ⟨b, rfl, hb⟩ : ∃ b, ev = some b ∧ b ≠ 0 := by
      cases ev with
      | none => exact absurd rfl hc.2
      | some b =>
        refine ⟨b, rfl, fun h0 => hc.2 ?_⟩
        simp [pyFalsyNum, h0]
    rw [calculate_offer_eq md Mx a b ha hb] at h
    split at h <;>
      simpa [nullOffer] using congrArg OfferResult.suggested_offer h
  · intro h
    unfold calculate_offer
    rw [if_pos (by rcases h with h | h <;> simp [h])]

/-- C5 counterexample: after the floor clamp fires at listing price 8000 and
estimated value 10000, the recomputed persisted numeric fields are negative:
`discount_amount = -1000` and `discount_percentage = -12.5`. -/
theorem offer_negative_discount_counterexample :
    (calculate_offer 10 20 (some 8000) (some 10000)).discount_amount = some (-1000)
    ∧ (calculate_offer 10 20 (some 8000) (some 10000)).discount_percentage
        = some (-25 / 2)
    ∧ (-1000 : ℚ) < 0 ∧ (-25 / 2 : ℚ) < 0 := by
  refine ⟨?_, ?_, by norm_num, by norm_num⟩ <;>
    norm_num [calculate_offer, calculate_market_position, tierOf, preOffer,
      preDiscountAmount, minAcceptableOffer, pyInt, pyFalsyNum, nullOffer]

/-- C5 amended: for positive inputs and nonnegative configured discounts the
suggested offer is always nonnegative, and when the floor clamp does not
fire the discount amount and discount percentage are also nonnegative; the
clamp recomputation, however, may make the discount fields negative (see the
counterexample). -/
theorem offer_fields_nonneg_amended (md Mx lp ev : ℚ)
    (hlp : 0 < lp) (hev : 0 < ev) (hmd : 0 ≤ md) (hMx : 0 ≤ Mx) :
    ∃ s : ℚ,
      (calculate_offer md Mx (some lp) (some ev)).suggested_offer = some s
      ∧ 0 ≤ s
      ∧ ((minAcceptableOffer ev : ℚ)
            ≤ preOffer lp (tierOf md Mx ((lp - ev) / ev * 100)).2 →
          (calculate_offer md Mx (some lp) (some ev)).discount_amount
              = some ((preDiscountAmount lp
                  (tierOf md Mx ((lp - ev) / ev * 100)).2 : ℤ) : ℚ)
          ∧ (calculate_offer md Mx (some lp) (some ev)).discount_percentage
              = some (tierOf md Mx ((lp - ev) / ev * 100)).2
          ∧ 0 ≤ ((preDiscountAmount lp
                  (tierOf md Mx ((lp - ev) / ev * 100)).2 : ℤ) : ℚ)
          ∧ 0 ≤ (tierOf md Mx ((lp - ev) / ev * 100)).2) := by
  have hlp0 : ¬ lp = 0 := ne_of_gt hlp
  have hev0 : ¬ ev = 0 := ne_of_gt hev
  have hdp : 0 ≤ (tierOf md Mx ((lp - ev) / ev * 100)).2 :=
    tierOf_nonneg md Mx _ hmd hMx
  have hda : (0 : ℚ) ≤ ((preDiscountAmount lp
      (tierOf md Mx ((lp - ev) / ev * 100)).2 : ℤ) : ℚ) := by
    have : 0 ≤ preDiscountAmount lp (tierOf md Mx ((lp - ev) / ev * 100)).2 :=
      pyInt_nonneg (by positivity)
    exact_mod_cast this
  have hmin : (0 : ℚ) ≤ ((minAcceptableOffer ev : ℤ) : ℚ) := by
    have : 0 ≤ minAcceptableOffer ev := pyInt_nonneg (by positivity)
    exact_mod_cast this
  rw [calculate_offer_eq md Mx lp ev hlp0 hev0]
  split
  · rename_i hclamp
    refine ⟨_, rfl, hmin, fun hnc => absurd hclamp (not_lt.mpr ?_)⟩
    exact hnc
  · rename_i hclamp
    push_neg at hclamp
    exact ⟨_, rfl, le_trans hmin hclamp, fun _ => ⟨rfl, rfl, hda, hdp⟩⟩

/-- C10: `calculate_market_position` never divides when either input is
missing, zero, or otherwise Python-falsy: it returns the all-zero position
record. -/
theorem market_position_falsy_returns_zero (lp ev : Option ℚ)
    (h : pyFalsyNum lp = true ∨ pyFalsyNum ev = true) :
    calculate_market_position lp ev =
      { relative_position := 0, is_overpriced := false,
        is_underpriced := false, position_percentage := 0 } := by
  unfold calculate_market_position
  rcases h with h | h <;> simp [h]

/-- Witness for C10 at the concrete input `(None, None)`. -/
theorem market_position_falsy_returns_zero_witness :
    calculate_market_position none none =
      { relative_position := 0, is_overpriced := false,
        is_underpriced := false, position_percentage := 0 } :=
  market_position_falsy_returns_zero none none (Or.inl rfl)

/-- Witness for the amended C3 theorem at `min = 10`, `max = 20`,
listing 9500, estimate 10000 (position −5 %) and at `pp = 0`. -/
theorem tier_boundary_amended_witness :
    (calculate_offer 10 20 (some 9500) (some 10000)).strategy
        = "Remise minimale - bonne affaire"
    ∧ tierOf 10 20 0 = ("Remise standard - prix conforme au marché", 10) :=
  ⟨(tier_boundary_amended.1 10 20 9500 10000 (by norm_num) (by norm_num)
      (by norm_num)).1,
    tier_boundary_amended.2 10 20 0 (by norm_num) (by norm_num)⟩

/-- Witness for the amended C5 theorem at `min = 10`, `max = 20`,
listing 15000, estimate 13000. -/
theorem offer_fields_nonneg_amended_witness :
    ∃ s : ℚ,
      (calculate_offer 10 20 (some 15000) (some 13000)).suggested_offer = some s
      ∧ 0 ≤ s
      ∧ ((minAcceptableOffer 13000 : ℚ)
            ≤ preOffer 15000 (tierOf 10 20 ((15000 - 13000) / 13000 * 100)).2 →
          (calculate_offer 10 20 (some 15000) (some 13000)).discount_amount
              = some ((preDiscountAmount 15000
                  (tierOf 10 20 ((15000 - 13000) / 13000 * 100)).2 : ℤ) : ℚ)
          ∧ (calculate_offer 10 20 (some 15000) (some 13000)).discount_percentage
              = some (tierOf 10 20 ((15000 - 13000) / 13000 * 100)).2
          ∧ 0 ≤ ((preDiscountAmount 15000
                  (tierOf 10 20 ((15000 - 13000) / 13000 * 100)).2 : ℤ) : ℚ)
          ∧ 0 ≤ (tierOf 10 20 ((15000 - 13000) / 13000 * 100)).2) :=
  offer_fields_nonneg_amended 10 20 15000 13000 (by norm_num) (by norm_num)
    (by norm_num) (by norm_num)

/-! ### Claims C6 and C9 — locale parsing and the make/model heuristic -/

/-- C6: the mileage extraction of the email pipeline parses `"116 200 km"`
(plain ASCII space), `"116.200 km"` (period separator) and
`"116\u202F200 km"` (narrow no-break space U+202F) to 116200:
`sanitize_text` first collapses every whitespace run — including U+202F —
to a single ASCII space, after which the regex group's spaces and periods
are removed before `int`. -/
theorem mileage_locale_parsing :
    mileageOfDetailsElem "116 200 km" = .ok (some 116200)
    ∧ mileageOfDetailsElem "116.200 km" = .ok (some 116200)
    ∧ mileageOfDetailsElem "116\u202F200 km" = .ok (some 116200) :=
  ⟨rfl, rfl, rfl⟩

/-- C9 counterexample: `email_scraper.extract_car_listings` sets the model
from token 1 only, so for the three-token title `"BMW 118 118i"` the model
is `"118"`, not the join `"118 118i"` the claim predicts. -/
theorem make_model_join_counterexample :
    emailMakeModel "BMW 118 118i" = (some "BMW", some "118")
    ∧ (emailMakeModel "BMW 118 118i").2 ≠ some "118 118i" := by
  constructor
  · rfl
  · intro h
    exact absurd (Option.some.inj h) (by decide)

/-- C9 amended: the two scrapers disagree.  In `gmail_api_scraper` the
heuristic is as claimed (token 0 → make; token 1 → model for two tokens;
the space-join of tokens 1.. for more) — and since the join of a single
token is that token, the model is always the join of tokens 1.. when at
least two tokens exist.  In `email_scraper` the model is always token 1
alone, even when more tokens follow. -/
theorem make_model_heuristic_amended :
    (∀ (t : String) (parts : List (List Char)), pySplit t.data = parts →
        2 ≤ parts.length →
        gmailMakeModel t
          = (some (String.mk (parts.getD 0 [])),
             some (String.mk (List.intercalate [' '] (parts.drop 1)))))
    ∧ (∀ (t : String) (parts : List (List Char)), pySplit t.data = parts →
        2 ≤ parts.length →
        emailMakeModel t
          = (some (String.mk (parts.getD 0 [])),
             some (String.mk (parts.getD 1 [])))) := by
  have hne : ∀ (t : String) (parts : List (List Char)),
      pySplit t.data = parts → 2 ≤ parts.length → ¬ t = "" := by
    intro t parts hp hlen ht
    subst ht
    rw [show pySplit ("" : String).data = [] from rfl] at hp
    rw [← hp] at hlen
    simp at hlen
  constructor
  · intro t parts hp hlen
    unfold gmailMakeModel
    rw [if_neg (hne t parts hp hlen), hp]
    rw [if_pos (by omega), if_pos (by omega)]
    by_cases h2 : 2 < parts.length
    · rw [if_pos h2]
    · rw [if_neg h2]
      have hl2 : parts.length = 2 := by omega
      obtain ⟨a, b, rfl⟩ := List.length_eq_two.mp hl2
      simp [List.intercalate]
  · intro t parts hp hlen
    unfold emailMakeModel
    rw [if_neg (hne t parts hp hlen), hp]
    rw [if_pos (by omega), if_pos (by omega)]

/-- Witness for the amended C9 theorem at the title `"BMW 118 118i"`. -/
theorem make_model_heuristic_amended_witness :
    gmailMakeModel "BMW 118 118i"
      = (some (String.mk ((pySplit ("BMW 118 118i" : String).data).getD 0 [])),
         some (String.mk (List.intercalate [' ']
           ((pySplit ("BMW 118 118i" : String).data).drop 1))))
    ∧ emailMakeModel "BMW 118 118i"
      = (some (String.mk ((pySplit ("BMW 118 118i" : String).data).getD 0 [])),
         some (String.mk ((pySplit ("BMW 118 118i" : String).data).getD 1 []))) :=
  ⟨make_model_heuristic_amended.1 _ _ rfl (by decide),
   make_model_heuristic_amended.2 _ _ rfl (by decide)⟩

/-! ### Support lemmas for the extraction claims -/

/-- A digit character differs from any non-digit character. -/
theorem digit_ne {x : Char} (hx : x.isDigit = true) (c : Char)
    (hc : c.isDigit = false) : ¬ x = c := by
  intro h
  rw [h, hc] at hx
  exact Bool.false_ne_true hx

/-- A digit character is not Python whitespace. -/
theorem digit_not_pyIsSpace {x : Char} (hx : x.isDigit = true) :
    pyIsSpace x = false := by
  by_contra h
  rw [Bool.not_eq_false] at h
  simp only [pyIsSpace, decide_eq_true_eq] at h
  rcases h with rfl|rfl|rfl|rfl|rfl|rfl|rfl|rfl|rfl|rfl|rfl|rfl|rfl|rfl|rfl|
    rfl|rfl|rfl|rfl|rfl|rfl|rfl|rfl|rfl|rfl|rfl|rfl|rfl|rfl <;>
    exact absurd hx (by decide)

/-- `dropWhile` does nothing on a list whose head (if any) fails the
predicate. -/
theorem dropWhile_eq_self_of_forall {p : Char → Bool} {l : List Char}
    (h : ∀ x ∈ l, p x = false) : l.dropWhile p = l := by
  cases l with
  | nil => rfl
  | cons a t =>
    rw [List.dropWhile_cons, if_neg]
    rw [h a (List.mem_cons_self a t)]
    exact Bool.false_ne_true

/-- `pyStrip` of an all-digit list is the list itself. -/
theorem pyStrip_digits {l : List Char} (h : ∀ x ∈ l, x.isDigit = true) :
    pyStrip l = l := by
  unfold pyStrip
  rw [dropWhile_eq_self_of_forall (fun x hx => digit_not_pyIsSpace (h x hx))]
  rw [dropWhile_eq_self_of_forall
    (fun x hx => digit_not_pyIsSpace (h x (List.mem_reverse.mp hx)))]
  exact List.reverse_reverse l

/-- `pyIntParse` succeeds on a nonempty all-digit list. -/
theorem pyIntParse_digits {l : List Char} (hne : l ≠ [])
    (h : ∀ x ∈ l, x.isDigit = true) :
    pyIntParse l = some ((digitsToNat l : ℤ)) := by
  obtain ⟨c, t, rfl⟩ := List.exists_cons_of_ne_nil hne
  have hc : c.isDigit = true := h c (List.mem_cons_self c t)
  unfold pyIntParse
  rw [pyStrip_digits h]
  simp only [pyIntParseSigned]
  rw [if_neg (digit_ne hc '+' (by decide)), if_neg (digit_ne hc '-' (by decide))]
  rw [if_pos (List.all_eq_true.mpr h)]

/-- `filter` keeps an all-digit list intact under the space and period
filters applied to the mileage group. -/
theorem digit_filters {l : List Char} (h : ∀ x ∈ l, x.isDigit = true) :
    (l.filter (fun c => ¬ c = ' ')).filter (fun c => ¬ c = '.') = l := by
  have h1 : l.filter (fun c => ¬ c = ' ') = l :=
    List.filter_eq_self.mpr
      (fun a ha => decide_eq_true (digit_ne (h a ha) ' ' (by decide)))
  rw [h1]
  exact List.filter_eq_self.mpr
    (fun a ha => decide_eq_true (digit_ne (h a ha) '.' (by decide)))

/-- Specification of `mileageSepCase`: a successful separator-alternative
match passes `d1` through, returns all-digit `d2`, and a separator that is
whitespace or a period and occurs in `rest`. -/
theorem mileageSepCase_spec {d1 rest d1' d2 : List Char} {sep : Option Char}
    (h : mileageSepCase d1 rest = some (d1', sep, d2)) :
    d1' = d1 ∧ (∀ x ∈ d2, x.isDigit = true)
    ∧ ∃ ch, sep = some ch ∧ (pyIsSpace ch = true ∨ ch = '.') ∧ ch ∈ rest := by
  cases rest with
  | nil => exact absurd h (by simp [mileageSepCase])
  | cons c rest2 =>
    simp only [mileageSepCase] at h
    split at h
    · rename_i hg
      split at h
      · injection h with h'
        injection h' with h1 h23
        injection h23 with h2 h3
        subst h1
        subst h2
        subst h3
        refine ⟨rfl, ?_, c, rfl, hg, List.mem_cons_self c rest2⟩
        intro x hx
        exact List.mem_takeWhile_imp hx
      · exact absurd h (by simp)
    · exact absurd h (by simp)

/-- Specification of `matchMileageAt`: group 1 decomposes into nonempty
all-digit `d1`, an optional whitespace-or-period separator drawn from the
input, and all-digit `d2`. -/
theorem matchMileageAt_spec {l d1 d2 : List Char} {sep : Option Char}
    (h : matchMileageAt l = some (d1, sep, d2)) :
    d1 ≠ [] ∧ (∀ x ∈ d1, x.isDigit = true) ∧ (∀ x ∈ d2, x.isDigit = true)
    ∧ ∀ ch, sep = some ch → (pyIsSpace ch = true ∨ ch = '.') ∧ ch ∈ l := by
  unfold matchMileageAt at h
  split at h
  · exact absurd h (by simp)
  · rename_i hne
    have htake : ∀ x ∈ l.takeWhile Char.isDigit, x.isDigit = true :=
      fun x hx => List.mem_takeWhile_imp hx
    split at h
    · rename_i r hr
      injection h with h'
      subst h'
      obtain ⟨hd1, hd2, ch, hch, hcls, hmem⟩ := mileageSepCase_spec hr
      subst hd1
      refine ⟨hne, htake, hd2, fun ch' hch' => ?_⟩
      rw [hch] at hch'
      injection hch' with hch''
      subst hch''
      refine ⟨hcls, ?_⟩
      have : ch ∈ l.drop (l.takeWhile Char.isDigit).length := hmem
      exact List.drop_subset _ l this
    · split at h
      · injection h with h'
        injection h' with h1 h23
        injection h23 with h2 h3
        subst h1
        subst h2
        subst h3
        refine ⟨hne, htake, ?_, ?_⟩
        · intro x hx
          cases hx
        · intro ch hch
          cases hch
      · exact absurd h (by simp)

/-- `searchMileage` finds its match at some suffix of the input. -/
theorem searchMileage_spec {l : List Char}
    {r : List Char × Option Char × List Char} (h : searchMileage l = some r) :
    ∃ t, t <:+ l ∧ matchMileageAt t = some r := by
  induction l with
  | nil => exact absurd h (by simp [searchMileage])
  | cons c cs ih =>
    unfold searchMileage at h
    split at h
    · rename_i hm
      injection h with h'
      subst h'
      exact ⟨c :: cs, List.suffix_refl _, hm⟩
    · obtain ⟨t, ht, hmt⟩ := ih h
      exact ⟨t, ht.trans (List.suffix_cons c cs), hmt⟩

/-- Every whitespace character in the output of `collapseAux` is the ASCII
space it was collapsed to. -/
theorem mem_collapseAux_space {x : Char} :
    ∀ (b : Bool) (l : List Char), x ∈ collapseAux b l → pyIsSpace x = true →
      x = ' ' := by
  intro b l
  induction l generalizing b with
  | nil => intro h; cases h
  | cons c cs ih =>
    intro hx hs
    unfold collapseAux at hx
    by_cases hc : pyIsSpace c = true
    · rw [if_pos hc] at hx
      cases b with
      | true => exact ih true hx hs
      | false =>
        rcases List.mem_cons.mp hx with rfl | hx'
        · rfl
        · exact ih true hx' hs
    · rw [if_neg hc] at hx
      rcases List.mem_cons.mp hx with rfl | hx'
      · exact absurd hs hc
      · exact ih false hx' hs

/-- `pyStrip` keeps only characters of its input. -/
theorem pyStrip_subset (l : List Char) : pyStrip l ⊆ l := by
  unfold pyStrip
  intro x hx
  rw [List.mem_reverse] at hx
  have hx2 : x ∈ (l.dropWhile pyIsSpace).reverse :=
    (List.dropWhile_sublist _).subset hx
  rw [List.mem_reverse] at hx2
  exact (List.dropWhile_sublist _).subset hx2

/-- Every whitespace character of a sanitized string is the ASCII space. -/
theorem sanitize_space_char {s : String} {x : Char}
    (hx : x ∈ (sanitize_text s).data) (hs : pyIsSpace x = true) : x = ' ' := by
  unfold sanitize_text at hx
  split at hx
  · cases hx
  · exact mem_collapseAux_space false _ (pyStrip_subset _ hx) hs

/-- The mileage extraction never raises on a sanitized details string: the
regex group, after removal of spaces and periods, is a nonempty digit
string, so `int` succeeds. -/
theorem mileageFromDetails_sanitized_ok (s : String) :
    ∃ v, mileageFromDetails (sanitize_text s).data = .ok v := by
  unfold mileageFromDetails
  split
  · exact ⟨none, rfl⟩
  · cases hs : searchMileage (sanitize_text s).data with
    | none => simp only [hs]; exact ⟨none, rfl⟩
    | some r =>
      obtain ⟨d1, sep, d2⟩ := r
      obtain ⟨t, ht, hmt⟩ := searchMileage_spec hs
      obtain ⟨hne, hd1, hd2, hsep⟩ := matchMileageAt_spec hmt
      have hne2 : d1 ++ d2 ≠ [] :=
        fun hcon => hne (List.append_eq_nil.mp hcon).1
      have hdd : ∀ x ∈ d1 ++ d2, x.isDigit = true := by
        intro x hx
        rcases List.mem_append.mp hx with hx1 | hx2
        · exact hd1 x hx1
        · exact hd2 x hx2
      cases sep with
      | none =>
        have hparse : pyIntParse (((d1 ++ ([] : List Char) ++ d2).filter
            (fun c => ¬ c = ' ')).filter (fun c => ¬ c = '.'))
              = some ((digitsToNat (d1 ++ d2) : ℤ)) := by
          rw [show d1 ++ ([] : List Char) ++ d2 = d1 ++ d2 by simp]
          rw [digit_filters hdd]
          exact pyIntParse_digits hne2 hdd
        simp only [hs, hparse]
        exact ⟨_, rfl⟩
      | some ch =>
        obtain ⟨hcls, hmem⟩ := hsep ch rfl
        have hch : (([ch].filter (fun c => ¬ c = ' ')).filter
            (fun c => ¬ c = '.')) = ([] : List Char) := by
          rcases hcls with hws | rfl
          · have : ch = ' ' :=
              sanitize_space_char (ht.sublist.subset hmem) hws
            subst this
            rfl
          · rfl
        have hparse : pyIntParse (((d1 ++ [ch] ++ d2).filter
            (fun c => ¬ c = ' ')).filter (fun c => ¬ c = '.'))
              = some ((digitsToNat (d1 ++ d2) : ℤ)) := by
          have hgroup : ((d1 ++ [ch] ++ d2).filter
              (fun c => ¬ c = ' ')).filter (fun c => ¬ c = '.') = d1 ++ d2 := by
            simp only [List.filter_append]
            rw [digit_filters hd1, digit_filters hd2, hch]
            simp
          rw [hgroup]
          exact pyIntParse_digits hne2 hdd
        simp only [hs, hparse]
        exact ⟨_, rfl⟩

/-- Container processing never fails: the only raising operation is the
mileage `int`, and the details text it sees is sanitized. -/
theorem processContainer_ok (now : String) (c : Container) :
    ∃ r, processContainer now c = Except.ok r := by
  unfold processContainer
  have hm : ∃ v, mileageFromDetails (containerDetailsText c).data = .ok v := by
    unfold containerDetailsText
    cases c.small_details with
    | none => exact ⟨none, rfl⟩
    | some t => exact mileageFromDetails_sanitized_ok t
  obtain ⟨v, hv⟩ := hm
  simp only [hv]
  exact ⟨_, rfl⟩

/-- Evaluation of `processContainer` given the mileage result. -/
theorem processContainer_eq (now : String) (c : Container) {v : Option ℤ}
    (hv : mileageFromDetails (containerDetailsText c).data = .ok v) :
    processContainer now c = .ok
      { title := containerTitle c
        make := (emailMakeModel (containerTitle c)).1
        model := (emailMakeModel (containerTitle c)).2
        price := extract_number_from_text (containerPriceText c)
        price_text := containerPriceText c
        details := containerDetailsText c
        mileage := v
        year := yearFromDetails (containerDetailsText c).data
        url := containerUrl c
        image_url := c.img_src
        source := "email"
        scraped_at := now } := by
  unfold processContainer
  simp only [hv]

/-- Every URL the Selenium fallback collects contains the listing-path
pattern. -/
theorem seleniumCollectUrlsAux_pattern :
    ∀ (ls : List (Option String)) (acc : List String),
      (∀ u ∈ acc, pyInStr "/fr/voiture/" u = true) →
      ∀ u ∈ seleniumCollectUrlsAux ls acc, pyInStr "/fr/voiture/" u = true := by
  intro ls
  induction ls with
  | nil =>
    intro acc hacc u hu
    exact hacc u hu
  | cons h t ih =>
    intro acc hacc u hu
    cases h with
    | none =>
      simp only [seleniumCollectUrlsAux] at hu
      exact ih acc hacc u hu
    | some href =>
      simp only [seleniumCollectUrlsAux] at hu
      split at hu
      · rename_i hcond
        refine ih (acc ++ [href]) ?_ u hu
        intro w hw
        rcases List.mem_append.mp hw with hw1 | hw2
        · exact hacc w hw1
        · rw [List.mem_singleton.mp hw2]
          exact hcond.2.1
      · exact ih acc hacc u hu

/-! ### Claims C7 and C8 — extractor fallback and resilience -/

/-- C7 counterexample: the email extractor has no fallback.  On a markup
with zero `table.border-container` containers but a hyperlink whose href
matches the listing-URL path, `extract_car_listings` returns the empty
sequence and synthesizes no minimal record. -/
theorem extract_no_fallback_counterexample :
    extract_car_listings ""
      { containers := []
        hyperlinks :=
          [(some "https://www.autoscout24.be/fr/offres/bmw-118-118i", "Détails")] }
      = [] := rfl

/-- C7 amended: in the cited email extractors, a markup whose container
locator yields zero containers produces the empty sequence — there is no
fallback there.  A generic hyperlink-scanning fallback exists only in the
Selenium page scraper, and the minimal records it synthesizes carry the URL
and a null price but placeholder (non-null) title and price-text strings. -/
theorem extract_zero_containers_amended :
    (∀ (now : String) (m : Markup), m.containers = [] →
        extract_car_listings now m = [])
    ∧ (∀ (now : String) (links : List (Option String)),
        ∀ r ∈ seleniumFallback now links,
          r.price = none ∧ r.title = "Titre non extrait"
          ∧ r.price_text = "Prix non extrait"
          ∧ pyInStr "/fr/voiture/" r.url = true) := by
  constructor
  · intro now m hm
    unfold extract_car_listings
    rw [hm]
    rfl
  · intro now links r hr
    unfold seleniumFallback at hr
    rw [List.mem_map] at hr
    obtain ⟨url, hurl, rfl⟩ := hr
    exact ⟨rfl, rfl, rfl,
      seleniumCollectUrlsAux_pattern links [] (by intro u hu; cases hu) url hurl⟩

/-- Witness for the amended C7 theorem: a concrete containerless markup,
and the fallback record for one concrete matching link. -/
theorem extract_zero_containers_amended_witness :
    extract_car_listings "" { containers := [], hyperlinks := [] } = []
    ∧ (sampleFallbackRecord.price = none
        ∧ sampleFallbackRecord.title = "Titre non extrait"
        ∧ sampleFallbackRecord.price_text = "Prix non extrait"
        ∧ pyInStr "/fr/voiture/" sampleFallbackRecord.url = true) :=
  ⟨extract_zero_containers_amended.1 "" _ rfl,
   extract_zero_containers_amended.2 ""
     [some "https://www.autoscout24.be/fr/voiture/abc"] sampleFallbackRecord
     (List.Mem.head _)⟩

/-- C8: the extractor never aborts on a malformed container.  A container
whose price element is missing still yields a record, with a null price,
and all sibling containers before and after it are still extracted, in
order. -/
theorem extract_malformed_resilience (now : String)
    (cs1 cs2 : List Container) (c : Container)
    (links : List (Option String × String))
    (h : c.price_elem = none) :
    ∃ r : Listing, processContainer now c = Except.ok r ∧ r.price = none
      ∧ extract_car_listings now ⟨cs1 ++ c :: cs2, links⟩
          = extract_car_listings now ⟨cs1, links⟩
            ++ r :: extract_car_listings now ⟨cs2, links⟩ := by
  have hm : ∃ v, mileageFromDetails (containerDetailsText c).data = .ok v := by
    unfold containerDetailsText
    cases c.small_details with
    | none => exact ⟨none, rfl⟩
    | some t => exact mileageFromDetails_sanitized_ok t
  obtain ⟨v, hv⟩ := hm
  have hr := processContainer_eq now c hv
  refine ⟨_, hr, ?_, ?_⟩
  · show extract_number_from_text (containerPriceText c) = none
    unfold containerPriceText
    rw [h]
    rfl
  · unfold extract_car_listings
    simp only [List.filterMap_append, List.filterMap_cons, hr, Except.toOption]

/-- Witness for C8: a single price-less container between two well-formed
siblings. -/
theorem extract_malformed_resilience_witness :
    ∃ r : Listing,
      processContainer "t0"
        { links := [], card_title := some "BMW 118 118i", price_elem := none,
          small_details := some "116 200 km 05/2017", img_src := none }
        = Except.ok r
      ∧ r.price = none
      ∧ extract_car_listings "t0"
          ⟨[{ links := [], card_title := some "Audi A3", price_elem := some "€ 12 250,-",
              small_details := some "10 km", img_src := none }]
            ++ { links := [], card_title := some "BMW 118 118i", price_elem := none,
                 small_details := some "116 200 km 05/2017", img_src := none }
              :: [{ links := [], card_title := some "Fiat 500", price_elem := some "€ 1 000,-",
                    small_details := none, img_src := none }], []⟩
          = extract_car_listings "t0"
              ⟨[{ links := [], card_title := some "Audi A3", price_elem := some "€ 12 250,-",
                  small_details := some "10 km", img_src := none }], []⟩
            ++ r :: extract_car_listings "t0"
              ⟨[{ links := [], card_title := some "Fiat 500", price_elem := some "€ 1 000,-",
                  small_details := none, img_src := none }], []⟩ :=
  extract_malformed_resilience "t0"
    [{ links := [], card_title := some "Audi A3", price_elem := some "€ 12 250,-",
       small_details := some "10 km", img_src := none }]
    [{ links := [], card_title := some "Fiat 500", price_elem := some "€ 1 000,-",
       small_details := none, img_src := none }]
    { links := [], card_title := some "BMW 118 118i", price_elem := none,
      small_details := some "116 200 km 05/2017", img_src := none }
    [] rfl

/-- The merge leaves a sticky field at its existing stored value whenever
the incoming dict does not carry that key: a truthy existing value is
copied onto the patch (same value), any other existing value is simply not
touched by `$set`. -/
theorem mergeListing_sticky (now : ℕ) (e l : Doc) (f : String)
    (hf : f ∈ stickyFields) (hl : l f = none) :
    mergeListing now e l f = e f := by
  have hf4 : f = "estimated_value" ∨ f = "suggested_offer"
      ∨ f = "discount_percentage" ∨ f = "contacted" := by
    simpa [stickyFields] using hf
  have hupd : dset l "updated_at" (.time now) f = none := by
    rcases hf4 with rfl | rfl | rfl | rfl <;> simp [dset, hl]
  have hget : ∀ (d : Doc), pyTruthy (pyGet d f) = true →
      some (pyGet d f) = d f := by
    intro d hd
    unfold pyGet at hd ⊢
    cases hdf : d f with
    | none => rw [hdf] at hd; exact absurd hd (by decide)
    | some w => rfl
  have hone : ∀ (d : Doc) (g : String), (keepSticky1 e d g) f
      = (if g = f ∧ pyTruthy (pyGet e g) = true then some (pyGet e g)
         else d f) := by
    intro d g
    unfold keepSticky1 dset
    by_cases hg : pyTruthy (pyGet e g) = true
    · rw [if_pos hg]
      by_cases hgf : f = g
      · subst hgf
        simp [hg]
      · rw [if_neg hgf, if_neg (by intro hc; exact hgf hc.1.symm)]
    · rw [if_neg hg, if_neg (by intro hc; exact hg hc.2)]
  unfold mergeListing mongoSet keepSticky
  rw [hone, hone, hone, hone, hupd]
  rcases hf4 with rfl | rfl | rfl | rfl
  · by_cases ht : pyTruthy (pyGet e "estimated_value") = true <;>
      simp [ht, hget _] <;> cases e "estimated_value" <;> rfl
  · by_cases ht : pyTruthy (pyGet e "suggested_offer") = true <;>
      simp [ht, hget _] <;> cases e "suggested_offer" <;> rfl
  · by_cases ht : pyTruthy (pyGet e "discount_percentage") = true <;>
      simp [ht, hget _] <;> cases e "discount_percentage" <;> rfl
  · by_cases ht : pyTruthy (pyGet e "contacted") = true <;>
      simp [ht, hget _] <;> cases e "contacted" <;> rfl

/-- `updateFirstMatch` touches each position at most by merging. -/
theorem updateFirstMatch_get (q : MValue) (now : ℕ) (l : Doc)
    (db : List Doc) (i : ℕ) (e : Doc) (hi : db[i]? = some e) :
    (updateFirstMatch q now l db).1[i]? = some e
    ∨ (updateFirstMatch q now l db).1[i]? = some (mergeListing now e l) := by
  induction db generalizing i with
  | nil => simp at hi
  | cons d rest ih =>
    unfold updateFirstMatch
    by_cases hm : urlMatches q d = true
    · rw [if_pos hm]
      cases i with
      | zero =>
        simp only [List.getElem?_cons_zero, Option.some.injEq] at hi
        subst hi
        right
        simp
      | succ j =>
        left
        simp only [List.getElem?_cons_succ] at hi ⊢
        exact hi
    · rw [if_neg hm]
      cases i with
      | zero =>
        left
        simp only [List.getElem?_cons_zero, Option.some.injEq] at hi
        subst hi
        simp
      | succ j =>
        simp only [List.getElem?_cons_succ] at hi ⊢
        exact ih j hi

/-- One `store_listings` iteration preserves a stored sticky value at its
position when the incoming dict does not carry the sticky key. -/
theorem storeOne_sticky (now : ℕ) (db : List Doc) (l : Doc) (f : String)
    (hf : f ∈ stickyFields) (hl : l f = none)
    (i : ℕ) (e : Doc) (hi : db[i]? = some e)
    (v : MValue) (hv : e f = some v) :
    ∃ e', (storeOne now db l)[i]? = some e' ∧ e' f = some v := by
  unfold storeOne
  split
  · rcases updateFirstMatch_get (pyGet l "url") now l db i e hi with hg | hg
    · exact ⟨e, hg, hv⟩
    · refine ⟨mergeListing now e l, hg, ?_⟩
      rw [mergeListing_sticky now e l f hf hl]
      exact hv
  · have hlen : i < db.length := by
      by_contra hc
      rw [List.getElem?_eq_none (le_of_not_lt hc)] at hi
      cases hi
    rw [List.getElem?_append_left hlen]
    exact ⟨e, hi, hv⟩

/-- C2: sticky fields survive re-ingestion.  If a stored document has a
non-null sticky value and every incoming dict of a batch omits the sticky
key (raw extraction never populates it), then after `store_listings` the
document at the same position still holds exactly that value. -/
theorem store_listings_sticky_preserved (now : ℕ) (db : List Doc)
    (batch : List Doc) (f : String) (hf : f ∈ stickyFields)
    (hb : ∀ l ∈ batch, l f = none)
    (i : ℕ) (e : Doc) (hi : db[i]? = some e)
    (v : MValue) (hv : e f = some v) (hnn : v ≠ .null) :
    ∃ e', (store_listings now db batch)[i]? = some e' ∧ e' f = some v := by
  induction batch generalizing db e with
  | nil => exact ⟨e, hi, hv⟩
  | cons l ls ih =>
    have hstep := storeOne_sticky now db l f hf
      (hb l (List.mem_cons_self l ls)) i e hi v hv
    obtain ⟨e', he', hv'⟩ := hstep
    exact ih (storeOne now db l)
      (fun w hw => hb w (List.mem_cons_of_mem l hw)) e' he' hv'

/-- Witness for C2: re-ingesting a record for the same URL leaves the
stored `estimated_value` of 12000 unchanged. -/
theorem store_listings_sticky_preserved_witness :
    ∃ e', (store_listings 1 [sampleExisting] [sampleIncoming])[0]? = some e'
      ∧ e' "estimated_value" = some (.num 12000) :=
  store_listings_sticky_preserved 1 [sampleExisting] [sampleIncoming]
    "estimated_value" (by decide)
    (fun l hl => by rw [List.mem_singleton.mp hl]; rfl)
    0 sampleExisting rfl (.num 12000) rfl (by decide)

end Lovacar
